import Mathlib

/-!
Verification of the analysis-pipeline engine: turbo extraction / parallel
analysis (`core/analyzers/timelapse_analyzer.py`), the agent message bus
(`backend/app/core/agent_message_bus.py`) and the pipeline-run API
(`backend/app/api/agents.py`), as shallow Lean embeddings of the Python
source, with theorems settling the claims of the specification.
-/

/-- Name used for concrete frame-image paths in closed instances. -/
def frame_name : String := "frame_0001.jpg"

/-- The stable Python list sort on a rational-valued key, modelled by the
stable insertion sort of Mathlib with the relation `key a ≤ key b`. -/
def sortByKey {α : Type} (key : α → ℚ) (l : List α) : List α :=
  List.insertionSort (fun a b => key a ≤ key b) l

/-- `optimal_chunk_size = max(50, min(100, total_images // num_cores))`
(timelapse_analyzer.py line 422). -/
def optimal_chunk_size_base (total_images num_cores : Nat) : Nat :=
  max 50 (min 100 (total_images / num_cores))

/-- `target_chunks = int(num_cores * 1.5)` (line 425): the float product
`num_cores * 1.5` is exact, so `int` truncation is `num_cores * 3 / 2`. -/
def target_chunks (num_cores : Nat) : Nat := num_cores * 3 / 2

/-- Lines 422-427: the clamped chunk size, bumped to
`total_images // target_chunks + 1` when
`total_images > target_chunks * optimal_chunk_size`. -/
def optimal_chunk_size (total_images num_cores : Nat) : Nat :=
  if target_chunks num_cores * optimal_chunk_size_base total_images num_cores < total_images
  then total_images / target_chunks num_cores + 1
  else optimal_chunk_size_base total_images num_cores

/-- `[images[i:i + size] for i in range(0, total_images, size)]` (line 429). -/
def chunkify {α : Type} (l : List α) (size : Nat) : List (List α) :=
  (List.range ((l.length + size - 1) / size)).map (fun k => (l.drop (k * size)).take size)

theorem chunkify_length {α : Type} (l : List α) (size : Nat) :
    (chunkify l size).length = (l.length + size - 1) / size := by
  simp [chunkify]

theorem target_chunks_pos {num_cores : Nat} (hc : 1 ≤ num_cores) :
    0 < target_chunks num_cores := by
  unfold target_chunks
  omega

/-- C1: for 1000 extracted frames and 8 workers the chunk size lands in
`[50, 100]` and the chunk count in `[8, 16]`; moreover the adjustment step
never shrinks the clamped chunk size (it only adjusts upward). -/
theorem chunk_sizing_bounds (images : List String) (h : images.length = 1000)
    (total num_cores : Nat) (hc : 1 ≤ num_cores) :
    (50 ≤ optimal_chunk_size images.length 8 ∧ optimal_chunk_size images.length 8 ≤ 100)
    ∧ (8 ≤ (chunkify images (optimal_chunk_size images.length 8)).length
        ∧ (chunkify images (optimal_chunk_size images.length 8)).length ≤ 16)
    ∧ optimal_chunk_size_base total num_cores ≤ optimal_chunk_size total num_cores := by
  refine ⟨?_, ?_, ?_⟩
  · rw [h]; exact ⟨by decide, by decide⟩
  · rw [chunkify_length, h]
    exact ⟨by decide, by decide⟩
  · unfold optimal_chunk_size
    split
    · next hgt =>
      have htc : 0 < target_chunks num_cores := target_chunks_pos hc
      have hle : optimal_chunk_size_base total num_cores ≤ total / target_chunks num_cores := by
        rw [Nat.le_div_iff_mul_le htc]
        calc optimal_chunk_size_base total num_cores * target_chunks num_cores
            = target_chunks num_cores * optimal_chunk_size_base total num_cores := Nat.mul_comm _ _
          _ ≤ total := Nat.le_of_lt hgt
      omega
    · exact Nat.le_refl _

/-- Closed instance of `chunk_sizing_bounds` at a concrete 1000-frame list. -/
theorem chunk_sizing_bounds_witness :
    (List.replicate 1000 frame_name).length = 1000 ∧ 1 ≤ 8 ∧
    ((50 ≤ optimal_chunk_size (List.replicate 1000 frame_name).length 8
        ∧ optimal_chunk_size (List.replicate 1000 frame_name).length 8 ≤ 100)
      ∧ (8 ≤ (chunkify (List.replicate 1000 frame_name)
              (optimal_chunk_size (List.replicate 1000 frame_name).length 8)).length
        ∧ (chunkify (List.replicate 1000 frame_name)
              (optimal_chunk_size (List.replicate 1000 frame_name).length 8)).length ≤ 16)
      ∧ optimal_chunk_size_base 1000 8 ≤ optimal_chunk_size 1000 8) :=
  ⟨List.length_replicate 1000 frame_name, by decide,
    chunk_sizing_bounds (List.replicate 1000 frame_name) (List.length_replicate 1000 frame_name) 1000 8 (by decide)⟩

/-- Environment of one `flash_extract_resources` call: the `use_gpu` argument
and the observable behaviour of the external `ffmpeg` processes it spawns
(probe outcome, exit code of the hardware-accelerated frame extraction, and
the frame files each extraction command would leave in the output directory,
identified by their numeric index). -/
structure ExtractEnv where
  use_gpu : Bool
  probe_raises : Bool
  cuda_listed : Bool
  hw_exit_code : Nat
  hw_frames : List Nat
  sw_frames : List Nat
deriving DecidableEq

/-- Lines 84-93: `gpu_available` is true iff `use_gpu`, the
`ffmpeg -hwaccels` probe did not raise, and its output lists `cuda`. -/
def gpu_available (env : ExtractEnv) : Bool :=
  env.use_gpu && (!env.probe_raises && env.cuda_listed)

/-- `os.path.join(output_dir, "audio.wav")` (line 121), directory elided. -/
def audio_file_name : String := "audio.wav"

/-- Return value of `flash_extract_resources`, extended with the number of
accelerator probes the call performed. -/
structure ExtractOutcome where
  frame_paths : List Nat
  audio_path : String
  probe_runs : Nat
deriving DecidableEq

/-- The sorted glob over the jpg files of the output directory (line 148):
the zero-padded names sort like their numeric indices. -/
def sorted_glob (frames : List Nat) : List Nat :=
  List.insertionSort (fun a b : Nat => a ≤ b) frames

/-- `flash_extract_resources` (lines 63-151): runs the probe whenever
`use_gpu` is set; issues the hardware frame-extraction command when the probe
succeeded, and re-issues the software command when that process exits
non-zero; otherwise issues the software command directly; finally returns the
sorted frame files found in the output directory plus the audio path. -/
def flash_extract_resources (env : ExtractEnv) : ExtractOutcome :=
  { frame_paths := sorted_glob
      (if gpu_available env then
        (if env.hw_exit_code = 0 then env.hw_frames else env.sw_frames)
      else env.sw_frames)
  , audio_path := audio_file_name
  , probe_runs := if env.use_gpu then 1 else 0 }

/-- C2: when the process of the hardware path exits non-zero, the extraction is
re-issued on the software path and the caller receives exactly what a pure
software-path call returns - same ordered frame list, same audio path. -/
theorem flash_extract_fallback_transparent (env : ExtractEnv)
    (hgpu : gpu_available env = true) (hexit : env.hw_exit_code ≠ 0) :
    (flash_extract_resources env).frame_paths = sorted_glob env.sw_frames
    ∧ (flash_extract_resources env).frame_paths
        = (flash_extract_resources { env with use_gpu := false }).frame_paths
    ∧ (flash_extract_resources env).audio_path
        = (flash_extract_resources { env with use_gpu := false }).audio_path := by
  have hsw : gpu_available { env with use_gpu := false } = false := by
    simp [gpu_available]
  refine ⟨?_, ?_, rfl⟩
  · simp [flash_extract_resources, hgpu, hexit]
  · simp [flash_extract_resources, hgpu, hexit, hsw]

/-- Concrete extraction environment whose hardware path fails. -/
def hw_fail_env : ExtractEnv :=
  { use_gpu := true, probe_raises := false, cuda_listed := true,
    hw_exit_code := 1, hw_frames := [3], sw_frames := [2, 1, 3] }

/-- Closed instance of `flash_extract_fallback_transparent`. -/
theorem flash_extract_fallback_transparent_witness :
    gpu_available hw_fail_env = true ∧ hw_fail_env.hw_exit_code ≠ 0 ∧
    ((flash_extract_resources hw_fail_env).frame_paths = sorted_glob hw_fail_env.sw_frames
      ∧ (flash_extract_resources hw_fail_env).frame_paths
          = (flash_extract_resources { hw_fail_env with use_gpu := false }).frame_paths
      ∧ (flash_extract_resources hw_fail_env).audio_path
          = (flash_extract_resources { hw_fail_env with use_gpu := false }).audio_path) :=
  ⟨by decide, by decide,
    flash_extract_fallback_transparent hw_fail_env (by decide) (by decide)⟩

/-- Probe count of a single extraction call. -/
def call_probe_runs (env : ExtractEnv) : Nat :=
  (flash_extract_resources env).probe_runs

/-- Total accelerator probes over a sequence of extraction calls in one
process. -/
def probes_over_calls (envs : List ExtractEnv) : Nat :=
  (envs.map call_probe_runs).sum

/-- Concrete extraction environment with GPU requested and available. -/
def gpu_env : ExtractEnv :=
  { use_gpu := true, probe_raises := false, cuda_listed := true,
    hw_exit_code := 0, hw_frames := [1, 2], sw_frames := [1, 2] }

/-- C9 counterexample: two extraction calls in the same process each run the
accelerator probe - the probe result is not cached, so the claimed
at-most-one-probe-per-process behaviour fails. -/
theorem probe_not_cached_counterexample :
    probes_over_calls [gpu_env, gpu_env] = 2
    ∧ ¬ probes_over_calls [gpu_env, gpu_env] ≤ 1 := by
  exact ⟨rfl, by decide⟩

/-- C9 (amended): every call with `use_gpu` set performs its own accelerator
probe; the probe count over a call sequence equals the number of calls
requesting GPU use. -/
theorem probe_runs_every_call (envs : List ExtractEnv) :
    probes_over_calls envs = (envs.filter (fun e => e.use_gpu)).length := by
  induction envs with
  | nil => rfl
  | cons e rest ih =>
    by_cases h : e.use_gpu = true
    · simp [probes_over_calls, List.filter_cons, h, call_probe_runs,
        flash_extract_resources] at ih ⊢
      omega
    · simp [probes_over_calls, List.filter_cons, h, call_probe_runs,
        flash_extract_resources] at ih ⊢
      simp [Bool.not_eq_true] at h
      simp [h, ih]

/-- Wildcard subscription key (agent_message_bus.py line 83). -/
def wildcardKey : String := "*"

/-- `AgentEvent` dataclass (agent_message_bus.py lines 12-18). -/
structure AgentEvent where
  event_type : String
  agent_name : String
  timestamp : String
  data : List (String × String)
deriving DecidableEq

/-- A registered subscriber callback, abstracted to an identity plus whether
invoking it raises. -/
structure Callback where
  id : Nat
  fails : Bool
deriving DecidableEq

/-- Python-dict lookup with default (`dict.get(k, d)`), on an association
list. -/
def assocGetD {β : Type} : List (String × β) → String → β → β
  | [], _, d => d
  | (k1, v) :: rest, k, d => if k1 = k then v else assocGetD rest k d

/-- Python-dict store (`dict[k] = v`), on an association list. -/
def assocSet {β : Type} : List (String × β) → String → β → List (String × β)
  | [], k, v => [(k, v)]
  | (k1, v1) :: rest, k, v =>
      if k1 = k then (k1, v) :: rest else (k1, v1) :: assocSet rest k v

/-- `AgentMessageBus` instance state (lines 48-55), plus the `_initialized`
guard flag set by `__init__`. -/
structure AgentMessageBus where
  subscribers : List (String × List Callback)
  event_history : List AgentEvent
  pipeline_events : List (String × List AgentEvent)
  max_history : Nat
  initDone : Bool
deriving DecidableEq

/-- Lines 66-68: append the event to the history, then trim to the most
recent `max_history` entries when the cap is exceeded
(`history[-max_history:]`). -/
def historyStep (max_history : Nat) (history : List AgentEvent) (event : AgentEvent) :
    List AgentEvent :=
  if max_history < (history ++ [event]).length
  then (history ++ [event]).drop ((history ++ [event]).length - max_history)
  else history ++ [event]

/-- The event built at the top of `publish` (lines 59-64). -/
def mkEvent (agent_name event_type ts : String) (data : List (String × String)) :
    AgentEvent :=
  { event_type := event_type, agent_name := agent_name, timestamp := ts, data := data }

/-- `AgentMessageBus.publish` (lines 57-87): appends to the capped global
history, appends to the per-pipeline log when a pipeline id is given, then
invokes every subscriber registered for the event type and every wildcard
subscriber, swallowing callback exceptions. The second component records, in
order, each attempted callback invocation as `(id, raised)`. -/
def publish (bus : AgentMessageBus) (agent_name event_type : String)
    (ts : String) (data : List (String × String)) (pipeline_id : Option String) :
    AgentMessageBus × List (Nat × Bool) :=
  let event := mkEvent agent_name event_type ts data
  let newHistory := historyStep bus.max_history bus.event_history event
  let newPipelineEvents :=
    match pipeline_id with
    | some pid =>
        assocSet bus.pipeline_events pid (assocGetD bus.pipeline_events pid [] ++ [event])
    | none => bus.pipeline_events
  let typed := assocGetD bus.subscribers event_type []
  let wild := assocGetD bus.subscribers wildcardKey []
  let calls := (typed ++ wild).map (fun cb => (cb.id, cb.fails))
  ({ bus with event_history := newHistory, pipeline_events := newPipelineEvents }, calls)

/-- `AgentMessageBus.subscribe` (lines 89-93). -/
def subscribe (bus : AgentMessageBus) (event_type : String) (cb : Callback) :
    AgentMessageBus :=
  { bus with subscribers :=
      assocSet bus.subscribers event_type (assocGetD bus.subscribers event_type [] ++ [cb]) }

/-- `AgentMessageBus.__new__` (lines 41-46): returns the stored singleton, or
a fresh not-yet-initialized object when none exists. The process-wide
`_instance` slot is threaded explicitly as an `Option`. -/
def bus_new (ps : Option AgentMessageBus) : AgentMessageBus :=
  match ps with
  | some b => b
  | none =>
      { subscribers := [], event_history := [], pipeline_events := [],
        max_history := 0, initDone := false }

/-- `AgentMessageBus.__init__` (lines 48-55): resets the maps and the 1000
entry history cap only when `_initialized` is not yet set. -/
def bus_init (b : AgentMessageBus) : AgentMessageBus :=
  if b.initDone then b
  else
    { subscribers := [], event_history := [], pipeline_events := [],
      max_history := 1000, initDone := true }

/-- `AgentMessageBus()` - `__new__` followed by `__init__`, returning the
instance and the updated `_instance` slot. -/
def mk_AgentMessageBus (ps : Option AgentMessageBus) :
    AgentMessageBus × Option AgentMessageBus :=
  let b := bus_init (bus_new ps)
  (b, some b)

/-- `get_message_bus()` (lines 123-124). -/
def get_message_bus (ps : Option AgentMessageBus) :
    AgentMessageBus × Option AgentMessageBus :=
  mk_AgentMessageBus ps

/-- The bus as first constructed in a fresh process. -/
def initial_bus : AgentMessageBus := (mk_AgentMessageBus none).1

/-- Arguments of one `publish` call. -/
structure PublishArgs where
  agent_name : String
  event_type : String
  ts : String
  data : List (String × String)
  pipeline_id : Option String

/-- The event a `publish` call appends. -/
def eventOf (p : PublishArgs) : AgentEvent :=
  mkEvent p.agent_name p.event_type p.ts p.data

/-- Sequential execution of a list of `publish` calls. -/
def runPublishes (bus : AgentMessageBus) (ps : List PublishArgs) : AgentMessageBus :=
  ps.foldl (fun b p => (publish b p.agent_name p.event_type p.ts p.data p.pipeline_id).1) bus

/-- The last `n` elements of a list. -/
def takeLast {α : Type} (n : Nat) (l : List α) : List α := l.drop (l.length - n)

theorem takeLast_length_le {α : Type} (n : Nat) (l : List α) :
    (takeLast n l).length ≤ n := by
  simp [takeLast]
  omega

theorem takeLast_of_length_le {α : Type} {n : Nat} {l : List α}
    (h : l.length ≤ n) : takeLast n l = l := by
  simp [takeLast, Nat.sub_eq_zero_of_le h]

/-- One capped append applied to an already-capped history advances the
capped suffix of the whole event stream. -/
theorem historyStep_takeLast {m : Nat} (hm : 1 ≤ m) (l : List AgentEvent)
    (e : AgentEvent) :
    historyStep m (takeLast m l) e = takeLast m (l ++ [e]) := by
  by_cases h : l.length ≤ m - 1
  · have h1 : takeLast m l = l := takeLast_of_length_le (by omega)
    have h2 : takeLast m (l ++ [e]) = l ++ [e] := by
      apply takeLast_of_length_le
      rw [List.length_append, List.length_cons, List.length_nil]
      omega
    rw [h1, h2, historyStep, if_neg]
    rw [List.length_append, List.length_cons, List.length_nil]
    omega
  · have hml : m ≤ l.length := by omega
    have hdk : (takeLast m l).length = m := by
      rw [takeLast, List.length_drop]; omega
    rw [historyStep, if_pos (by rw [List.length_append, hdk]; simp)]
    have hlen1 : (takeLast m l ++ [e]).length - m = 1 := by
      rw [List.length_append, hdk]; simp
    rw [hlen1]
    have h2 : (1 : Nat) ≤ (takeLast m l).length := by rw [hdk]; omega
    rw [List.drop_append_of_le_length h2, takeLast, List.drop_drop]
    have h3 : (l ++ [e]).length - m = (l.length - m) + 1 := by
      rw [List.length_append, List.length_cons, List.length_nil]; omega
    rw [takeLast, h3]
    have h4 : (l.length - m) + 1 ≤ l.length := by omega
    rw [List.drop_append_of_le_length h4]

theorem foldl_historyStep {m : Nat} (hm : 1 ≤ m) (es : List AgentEvent) :
    ∀ l : List AgentEvent,
      es.foldl (historyStep m) (takeLast m l) = takeLast m (l ++ es) := by
  induction es with
  | nil => intro l; simp
  | cons e rest ih =>
    intro l
    rw [List.foldl_cons, historyStep_takeLast hm, ih (l ++ [e])]
    simp

theorem publish_fst_event_history (bus : AgentMessageBus)
    (agent_name event_type ts : String) (data : List (String × String))
    (pipeline_id : Option String) :
    (publish bus agent_name event_type ts data pipeline_id).1.event_history
      = historyStep bus.max_history bus.event_history
          (mkEvent agent_name event_type ts data) := rfl

theorem publish_fst_max_history (bus : AgentMessageBus)
    (agent_name event_type ts : String) (data : List (String × String))
    (pipeline_id : Option String) :
    (publish bus agent_name event_type ts data pipeline_id).1.max_history
      = bus.max_history := rfl

theorem runPublishes_history (ps : List PublishArgs) :
    ∀ bus : AgentMessageBus,
      (runPublishes bus ps).event_history
        = (ps.map eventOf).foldl (historyStep bus.max_history) bus.event_history
      ∧ (runPublishes bus ps).max_history = bus.max_history := by
  induction ps with
  | nil => intro bus; exact ⟨rfl, rfl⟩
  | cons p rest ih =>
    intro bus
    have hstep := ih (publish bus p.agent_name p.event_type p.ts p.data p.pipeline_id).1
    constructor
    · rw [runPublishes, List.foldl_cons]
      rw [runPublishes] at hstep
      rw [hstep.1, publish_fst_max_history, publish_fst_event_history,
        List.map_cons, List.foldl_cons]
      rfl
    · rw [runPublishes, List.foldl_cons]
      rw [runPublishes] at hstep
      rw [hstep.2, publish_fst_max_history]

/-- C3: after any sequence of publishes on the freshly constructed bus, the
global history is exactly the most recent 1000 published events (oldest
evicted first) - in particular it never exceeds the 1000-entry cap. -/
theorem event_history_fifo_capped (ps : List PublishArgs) :
    (runPublishes initial_bus ps).event_history = takeLast 1000 (ps.map eventOf)
    ∧ (runPublishes initial_bus ps).event_history.length ≤ 1000 := by
  have hmax : initial_bus.max_history = 1000 := rfl
  have hhist : initial_bus.event_history = [] := rfl
  have h := (runPublishes_history ps initial_bus).1
  rw [hmax, hhist] at h
  have hempty : ([] : List AgentEvent) = takeLast 1000 [] := rfl
  rw [hempty] at h
  rw [foldl_historyStep (by omega)] at h
  simp only [List.nil_append] at h
  exact ⟨h, by rw [h]; exact takeLast_length_le 1000 (ps.map eventOf)⟩

theorem assocGetD_assocSet {β : Type} (l : List (String × β)) (k : String)
    (v : β) (d : β) : assocGetD (assocSet l k v) k d = v := by
  induction l with
  | nil => simp [assocSet, assocGetD]
  | cons p rest ih =>
    obtain ⟨k1, v1⟩ := p
    by_cases h : k1 = k
    · simp [assocSet, assocGetD, h]
    · simp [assocSet, assocGetD, h, ih]

/-- The event just published is always retained at the end of the history,
even when the cap evicts older entries. -/
theorem historyStep_getLast {m : Nat} (hm : 1 ≤ m) (h : List AgentEvent)
    (e : AgentEvent) : (historyStep m h e).getLast? = some e := by
  rw [historyStep]
  by_cases hc : m < (h ++ [e]).length
  · rw [if_pos hc]
    have hj : (h ++ [e]).length - m ≤ h.length := by
      rw [List.length_append, List.length_cons, List.length_nil]
      omega
    rw [List.drop_append_of_le_length hj]
    exact List.getLast?_concat _
  · rw [if_neg hc]
    exact List.getLast?_concat _

/-- C7: a publish delivers the event to every subscriber registered for the
event type and every wildcard subscriber, in registration order, regardless
of which callbacks raise (raises are swallowed: `publish` still returns);
the event is also appended to the global history and to the per-pipeline
log. -/
theorem publish_isolates_subscriber_failures (bus : AgentMessageBus)
    (agent_name event_type ts : String) (data : List (String × String))
    (pid : String) (hm : 1 ≤ bus.max_history) :
    ((publish bus agent_name event_type ts data (some pid)).2.map Prod.fst
        = (assocGetD bus.subscribers event_type []
            ++ assocGetD bus.subscribers wildcardKey []).map Callback.id)
    ∧ ((publish bus agent_name event_type ts data (some pid)).1.event_history.getLast?
        = some (mkEvent agent_name event_type ts data))
    ∧ (assocGetD (publish bus agent_name event_type ts data (some pid)).1.pipeline_events
          pid []
        = assocGetD bus.pipeline_events pid [] ++ [mkEvent agent_name event_type ts data]) := by
  refine ⟨?_, ?_, ?_⟩
  · show ((assocGetD bus.subscribers event_type []
        ++ assocGetD bus.subscribers wildcardKey []).map
          (fun cb => (cb.id, cb.fails))).map Prod.fst = _
    rw [List.map_map]
    rfl
  · rw [publish_fst_event_history]
    exact historyStep_getLast hm bus.event_history _
  · show assocGetD (assocSet bus.pipeline_events pid
        (assocGetD bus.pipeline_events pid [] ++ [mkEvent agent_name event_type ts data]))
        pid [] = _
    exact assocGetD_assocSet _ _ _ _

/-- Sample event-type, agent, pipeline-id and timestamp strings. -/
def evStart : String := "start"

def agVision : String := "vision"

def pidA : String := "p1"

def tsA : String := "t0"

/-- A bus with a raising subscriber, a healthy one and a wildcard one. -/
def demo_bus : AgentMessageBus :=
  { subscribers := [(evStart, [⟨1, true⟩, ⟨2, false⟩]), (wildcardKey, [⟨3, false⟩])],
    event_history := [], pipeline_events := [], max_history := 1000, initDone := true }

/-- Closed instance of `publish_isolates_subscriber_failures`: subscriber 1
raises, yet 2 and the wildcard 3 are still invoked and the event is
recorded. -/
theorem publish_isolates_subscriber_failures_witness :
    1 ≤ demo_bus.max_history ∧
    (((publish demo_bus agVision evStart tsA [] (some pidA)).2.map Prod.fst
        = (assocGetD demo_bus.subscribers evStart []
            ++ assocGetD demo_bus.subscribers wildcardKey []).map Callback.id)
      ∧ ((publish demo_bus agVision evStart tsA [] (some pidA)).1.event_history.getLast?
          = some (mkEvent agVision evStart tsA []))
      ∧ (assocGetD (publish demo_bus agVision evStart tsA [] (some pidA)).1.pipeline_events
            pidA []
          = assocGetD demo_bus.pipeline_events pidA [] ++ [mkEvent agVision evStart tsA []])) :=
  ⟨by decide, publish_isolates_subscriber_failures demo_bus agVision evStart tsA [] pidA
    (by decide)⟩

/-- C10: constructing the bus is idempotent and state-preserving - any
construction after the first returns the existing instance with its
subscriber map, event history and per-pipeline logs untouched, and neither
`publish` nor `subscribe` ever clears the initialization guard. -/
theorem message_bus_singleton_state_preserving :
    (∀ b : AgentMessageBus, b.initDone = true → get_message_bus (some b) = (b, some b))
    ∧ (∀ ps : Option AgentMessageBus,
        get_message_bus ((get_message_bus ps).2)
          = ((get_message_bus ps).1, (get_message_bus ps).2))
    ∧ (∀ (bus : AgentMessageBus) (a e t : String) (d : List (String × String))
        (pid : Option String), (publish bus a e t d pid).1.initDone = bus.initDone)
    ∧ (∀ (bus : AgentMessageBus) (e : String) (cb : Callback),
        (subscribe bus e cb).initDone = bus.initDone) := by
  have hconstruct : ∀ b : AgentMessageBus, b.initDone = true →
      get_message_bus (some b) = (b, some b) := by
    intro b hb
    simp [get_message_bus, mk_AgentMessageBus, bus_new, bus_init, hb]
  refine ⟨hconstruct, ?_, fun bus a e t d pid => rfl, fun bus e cb => rfl⟩
  intro ps
  have hinit : (get_message_bus ps).1.initDone = true := by
    cases ps with
    | none => rfl
    | some b =>
      by_cases hb : b.initDone = true
      · simp [get_message_bus, mk_AgentMessageBus, bus_new, bus_init, hb]
      · simp [get_message_bus, mk_AgentMessageBus, bus_new, bus_init, hb]
  have h2 : (get_message_bus ps).2 = some (get_message_bus ps).1 := by
    cases ps <;> rfl
  rw [h2, hconstruct _ hinit]

/-- Closed instance of `message_bus_singleton_state_preserving` at the
freshly constructed bus. -/
theorem message_bus_singleton_witness :
    initial_bus.initDone = true
    ∧ get_message_bus (some initial_bus) = (initial_bus, some initial_bus) :=
  ⟨rfl, message_bus_singleton_state_preserving.1 initial_bus rfl⟩

/-- One extracted frame image as seen by `analyze_vision_batch` (lines
188-251): its parsed index (`frame_%04d.jpg`), whether `cv2.imread`
succeeded, whether any analysis step raised, and the externally observed
per-frame measurements. -/
structure FrameFile where
  idx : Nat
  read_ok : Bool
  raises : Bool
  gesture_active : Bool
  face_detected : Bool
  eye_contact : Bool
  slide_complexity : ℚ
  text_density : Nat
deriving DecidableEq

/-- The result dict appended per frame (lines 237-247). -/
structure FrameRecord where
  sec : Nat
  timestamp : ℚ
  gesture_active : Bool
  face_detected : Bool
  eye_contact : Bool
  slide_complexity : ℚ
  text_density : Nat
  gesture_score : ℚ
  expression_score : ℚ
deriving DecidableEq

/-- The record built from a successfully analyzed frame (lines 237-247). -/
def frame_record (f : FrameFile) : FrameRecord :=
  { sec := f.idx, timestamp := (f.idx : ℚ), gesture_active := f.gesture_active,
    face_detected := f.face_detected, eye_contact := f.eye_contact,
    slide_complexity := f.slide_complexity, text_density := f.text_density,
    gesture_score := if f.gesture_active then 1 else 0,
    expression_score := if f.face_detected then 50 else 0 }

/-- `analyze_vision_batch` (lines 157-257): one pass over the chunk; a frame
whose image cannot be read (`continue` at line 195) or whose analysis raises
(`except` at line 249) is skipped, every other frame contributes one record. -/
def analyze_vision_batch (image_files : List FrameFile) : List FrameRecord :=
  image_files.filterMap (fun f =>
    if f.raises || !f.read_ok then none else some (frame_record f))

/-- A frame survives the batch: readable and analysis did not raise. -/
def analyzedOk (f : FrameFile) : Bool := !f.raises && f.read_ok

theorem analyze_vision_batch_eq (fs : List FrameFile) :
    analyze_vision_batch fs = (fs.filter analyzedOk).map frame_record := by
  induction fs with
  | nil => rfl
  | cons f rest ih =>
    simp only [analyze_vision_batch, List.filterMap_cons, List.filter_cons,
      analyzedOk] at ih ⊢
    by_cases hr : f.raises = true <;> by_cases ho : f.read_ok = true <;>
      simp [hr, ho] at ih ⊢ <;> exact ih

theorem range_chunks_join {α : Type} (size : Nat) (l : List α) :
    ∀ n : Nat,
      ((List.range n).map (fun k => (l.drop (k * size)).take size)).flatten
        = l.take (n * size) := by
  intro n
  induction n with
  | zero => simp
  | succ n ih =>
    rw [List.range_succ, List.map_append, List.flatten_append, ih]
    simp only [List.map_cons, List.map_nil, List.flatten_cons, List.flatten_nil,
      List.append_nil]
    rw [Nat.succ_mul, List.take_add]

theorem chunkify_join {α : Type} (l : List α) (size : Nat) (hs : 0 < size) :
    (chunkify l size).flatten = l := by
  rw [chunkify, range_chunks_join]
  apply List.take_of_length_le
  have hmod := Nat.div_add_mod (l.length + size - 1) size
  have hr : (l.length + size - 1) % size < size := Nat.mod_lt _ hs
  rw [Nat.mul_comm]
  generalize hsq : size * ((l.length + size - 1) / size) = t at hmod ⊢
  omega

theorem join_chunks_vision (cs : List (List FrameFile)) :
    (cs.map analyze_vision_batch).flatten
      = (cs.flatten.filter analyzedOk).map frame_record := by
  induction cs with
  | nil => rfl
  | cons c rest ih =>
    simp [analyze_vision_batch_eq, List.filter_append, ih]

/-- C5: over a chunked run, the multiset of output timestamps is exactly the
input frames minus those whose read or analysis failed (in input order, so
nothing is duplicated or silently dropped), and distinct input frame indices
give duplicate-free output timestamps - a failing frame is skipped without
aborting its chunk or the run. -/
theorem vision_chunk_union_timestamps (images : List FrameFile) (size : Nat)
    (hs : 0 < size) (hnd : (images.map FrameFile.idx).Nodup) :
    (((chunkify images size).map analyze_vision_batch).flatten.map FrameRecord.timestamp
        = (images.filter analyzedOk).map (fun f => (f.idx : ℚ)))
    ∧ (((chunkify images size).map analyze_vision_batch).flatten.map
          FrameRecord.timestamp).Nodup := by
  have key : ((chunkify images size).map analyze_vision_batch).flatten
      = (images.filter analyzedOk).map frame_record := by
    rw [join_chunks_vision, chunkify_join images size hs]
  have h1 : ((chunkify images size).map analyze_vision_batch).flatten.map
      FrameRecord.timestamp = (images.filter analyzedOk).map (fun f => (f.idx : ℚ)) := by
    rw [key, List.map_map]
    rfl
  refine ⟨h1, ?_⟩
  rw [h1]
  have hsub : List.Sublist ((images.filter analyzedOk).map FrameFile.idx)
      (images.map FrameFile.idx) :=
    (List.filter_sublist images).map FrameFile.idx
  have h2 : ((images.filter analyzedOk).map FrameFile.idx).Nodup :=
    List.Nodup.sublist hsub hnd
  have h3 : (images.filter analyzedOk).map (fun f => (f.idx : ℚ))
      = ((images.filter analyzedOk).map FrameFile.idx).map (fun n : Nat => (n : ℚ)) := by
    rw [List.map_map]
    rfl
  rw [h3]
  exact h2.map Nat.cast_injective

/-- Four concrete extracted frames: frame 1 raises during analysis, frame 2
is unreadable, frames 3 and 4 analyze fine. -/
def demo_frames : List FrameFile :=
  [ { idx := 3, read_ok := true, raises := false, gesture_active := true,
      face_detected := true, eye_contact := true, slide_complexity := 0,
      text_density := 5 },
    { idx := 1, read_ok := true, raises := true, gesture_active := false,
      face_detected := false, eye_contact := false, slide_complexity := 0,
      text_density := 0 },
    { idx := 2, read_ok := false, raises := false, gesture_active := false,
      face_detected := false, eye_contact := false, slide_complexity := 0,
      text_density := 0 },
    { idx := 4, read_ok := true, raises := false, gesture_active := false,
      face_detected := true, eye_contact := false, slide_complexity := 1,
      text_density := 9 } ]

/-- Closed instance of `vision_chunk_union_timestamps`: with chunk size 2,
frames 1 and 2 are skipped while 3 and 4 survive in the chunk outputs. -/
theorem vision_chunk_union_timestamps_witness :
    0 < 2 ∧ (demo_frames.map FrameFile.idx).Nodup ∧
    ((((chunkify demo_frames 2).map analyze_vision_batch).flatten.map
          FrameRecord.timestamp
        = (demo_frames.filter analyzedOk).map (fun f => (f.idx : ℚ)))
      ∧ (((chunkify demo_frames 2).map analyze_vision_batch).flatten.map
            FrameRecord.timestamp).Nodup) :=
  ⟨by decide, by decide,
    vision_chunk_union_timestamps demo_frames 2 (by decide) (by decide)⟩

/-- The stable sort of final_timeline by the sec key (line 453), on the
integer second index. -/
def sortBySec (l : List FrameRecord) : List FrameRecord :=
  List.insertionSort (fun a b => a.sec ≤ b.sec) l

/-- Merge step of `run_turbo_analysis` (lines 451-453): flatten the per-chunk
result lists and sort by second index. -/
def run_turbo_final_timeline (images : List FrameFile) (size : Nat) :
    List FrameRecord :=
  sortBySec ((chunkify images size).map analyze_vision_batch).flatten

theorem sortBySec_sorted (l : List FrameRecord) :
    List.Pairwise (fun a b : FrameRecord => a.sec ≤ b.sec) (sortBySec l) := by
  haveI : IsTotal FrameRecord (fun a b : FrameRecord => a.sec ≤ b.sec) :=
    ⟨fun a b => Nat.le_total a.sec b.sec⟩
  haveI : IsTrans FrameRecord (fun a b : FrameRecord => a.sec ≤ b.sec) :=
    ⟨fun _ _ _ => Nat.le_trans⟩
  exact List.sorted_insertionSort _ l

theorem sortBySec_idempotent (l : List FrameRecord) :
    sortBySec (sortBySec l) = sortBySec l := by
  haveI : IsTotal FrameRecord (fun a b : FrameRecord => a.sec ≤ b.sec) :=
    ⟨fun a b => Nat.le_total a.sec b.sec⟩
  haveI : IsTrans FrameRecord (fun a b : FrameRecord => a.sec ≤ b.sec) :=
    ⟨fun _ _ _ => Nat.le_trans⟩
  exact List.Sorted.insertionSort_eq (List.sorted_insertionSort _ l)

/-- Externally observed outcome of the librosa calls made by
`_analyze_audio_segment` on one segment: whether they raise, and the
measured values otherwise. -/
structure SegAnalysis where
  raises : Bool
  energy : ℚ
  pitch : ℚ
  pitch_std : ℚ
  is_silent : Bool

/-- The per-segment record (lines 363-379). -/
structure AudioSegRecord where
  timestamp : ℚ
  energy : ℚ
  pitch : ℚ
  pitch_std : ℚ
  is_silent : Bool
  is_monotone : Bool
deriving DecidableEq

/-- `_analyze_audio_segment` (lines 339-379): on success, the measured
values with `is_monotone = (pitch_std < 15.0)`; when any librosa step raises,
the conservative placeholder (zero energy/pitch, silent, monotone) at the
same timestamp `seg_idx / sr`. -/
def _analyze_audio_segment (oracle : Nat → SegAnalysis) (sr : Nat)
    (seg_idx : Nat) : AudioSegRecord :=
  if (oracle seg_idx).raises then
    { timestamp := (seg_idx : ℚ) / (sr : ℚ), energy := 0, pitch := 0,
      pitch_std := 0, is_silent := true, is_monotone := true }
  else
    { timestamp := (seg_idx : ℚ) / (sr : ℚ), energy := (oracle seg_idx).energy,
      pitch := (oracle seg_idx).pitch, pitch_std := (oracle seg_idx).pitch_std,
      is_silent := (oracle seg_idx).is_silent,
      is_monotone := decide ((oracle seg_idx).pitch_std < 15) }

/-- Window starts of `analyze_audio_track` (lines 315-323):
`range(0, total_samples, segment_samples)`, keeping only windows of at least
`sr` samples (`len(segment) < sr -> continue`); the window at start `i`
spans `min(segment_samples, total_samples - i)` samples. -/
def segment_starts (total_samples segment_samples sr : Nat) : List Nat :=
  ((List.range ((total_samples + segment_samples - 1) / segment_samples)).map
    (fun k => k * segment_samples)).filter
    (fun i => sr ≤ min segment_samples (total_samples - i))

/-- The segment timeline built by `analyze_audio_track` (lines 315-332):
`ThreadPoolExecutor.map` preserves the submission order of the windows. -/
def audio_segment_timeline (total_samples segment_samples sr : Nat)
    (oracle : Nat → SegAnalysis) : List AudioSegRecord :=
  (segment_starts total_samples segment_samples sr).map
    (_analyze_audio_segment oracle sr)

theorem seg_timestamp (oracle : Nat → SegAnalysis) (sr i : Nat) :
    (_analyze_audio_segment oracle sr i).timestamp = (i : ℚ) / (sr : ℚ) := by
  unfold _analyze_audio_segment
  split <;> rfl

theorem segment_starts_gap (L S sr : Nat) :
    List.Pairwise (fun a b : Nat => a + S ≤ b) (segment_starts L S sr) := by
  unfold segment_starts
  apply List.Pairwise.filter
  rw [List.pairwise_map]
  apply (List.pairwise_lt_range _).imp
  intro a b hab
  calc a * S + S = (a + 1) * S := (Nat.succ_mul a S).symm
    _ ≤ b * S := Nat.mul_le_mul_right S hab

theorem segment_starts_lt {L S sr : Nat} (hS : 0 < S) :
    List.Pairwise (fun a b : Nat => a < b) (segment_starts L S sr) :=
  (segment_starts_gap L S sr).imp (fun h => by omega)

theorem audio_timeline_timestamps (L S sr : Nat) (oracle : Nat → SegAnalysis) :
    (audio_segment_timeline L S sr oracle).map AudioSegRecord.timestamp
      = (segment_starts L S sr).map (fun i : Nat => (i : ℚ) / (sr : ℚ)) := by
  unfold audio_segment_timeline
  rw [List.map_map]
  exact List.map_congr_left (fun i _ => seg_timestamp oracle sr i)

theorem audio_timeline_timestamps_lt (L S sr : Nat) (oracle : Nat → SegAnalysis)
    (hS : 0 < S) (hsr : 0 < sr) :
    List.Pairwise (fun a b : ℚ => a < b)
      ((audio_segment_timeline L S sr oracle).map AudioSegRecord.timestamp) := by
  rw [audio_timeline_timestamps, List.pairwise_map]
  apply (segment_starts_lt hS).imp
  intro a b hab
  have hc : (0 : ℚ) < (sr : ℚ) := by exact_mod_cast hsr
  have hab2 : (a : ℚ) < (b : ℚ) := by exact_mod_cast hab
  exact div_lt_div_of_pos_right hab2 hc

/-- C6: the merged frame timeline is non-decreasing in its second index, the
audio segment timeline is non-decreasing in timestamp, and the sort is
idempotent (re-sorting an already sorted timeline is the identity). -/
theorem timelines_sorted_and_sort_idempotent :
    (∀ (images : List FrameFile) (size : Nat),
      List.Pairwise (fun a b : FrameRecord => a.sec ≤ b.sec)
        (run_turbo_final_timeline images size))
    ∧ (∀ (L S sr : Nat) (oracle : Nat → SegAnalysis), 0 < S → 0 < sr →
      List.Pairwise (fun a b : AudioSegRecord => a.timestamp ≤ b.timestamp)
        (audio_segment_timeline L S sr oracle))
    ∧ (∀ l : List FrameRecord, sortBySec (sortBySec l) = sortBySec l) := by
  refine ⟨?_, ?_, sortBySec_idempotent⟩
  · intro images size
    exact sortBySec_sorted _
  · intro L S sr oracle hS hsr
    have h := audio_timeline_timestamps_lt L S sr oracle hS hsr
    rw [List.pairwise_map] at h
    exact h.imp (fun hab => le_of_lt hab)

/-- Concrete per-segment oracle: the analysis of the window starting at
sample 10 raises; every other window succeeds with fixed measurements. -/
def demo_oracle : Nat → SegAnalysis := fun i =>
  if i = 10 then
    { raises := true, energy := 1, pitch := 1, pitch_std := 1, is_silent := false }
  else
    { raises := false, energy := 2, pitch := 120, pitch_std := 30, is_silent := false }

/-- Concrete frame records, out of order, with a duplicate second index. -/
def demo_records : List FrameRecord :=
  [ { sec := 2, timestamp := 2, gesture_active := false, face_detected := true,
      eye_contact := false, slide_complexity := 0, text_density := 0,
      gesture_score := 0, expression_score := 50 },
    { sec := 1, timestamp := 1, gesture_active := true, face_detected := true,
      eye_contact := true, slide_complexity := 1, text_density := 3,
      gesture_score := 1, expression_score := 50 },
    { sec := 1, timestamp := 1, gesture_active := false, face_detected := false,
      eye_contact := false, slide_complexity := 0, text_density := 0,
      gesture_score := 0, expression_score := 0 } ]

/-- Closed instance of `timelines_sorted_and_sort_idempotent` on concrete
frame and audio inputs. -/
theorem timelines_sorted_witness :
    0 < 10 ∧ 0 < 2 ∧
    List.Pairwise (fun a b : FrameRecord => a.sec ≤ b.sec)
      (run_turbo_final_timeline demo_frames 2)
    ∧ List.Pairwise (fun a b : AudioSegRecord => a.timestamp ≤ b.timestamp)
        (audio_segment_timeline 25 10 2 demo_oracle)
    ∧ sortBySec (sortBySec demo_records) = sortBySec demo_records :=
  ⟨by decide, by decide,
    timelines_sorted_and_sort_idempotent.1 demo_frames 2,
    timelines_sorted_and_sort_idempotent.2.1 25 10 2 demo_oracle (by decide) (by decide),
    timelines_sorted_and_sort_idempotent.2.2 demo_records⟩

/-- C8: the audio analyzer returns exactly one record per kept window, in
strictly increasing timestamp order; the window starts are spaced a full
segment apart (contiguous, non-overlapping windows); and a window whose
analysis raises yields the conservative placeholder record - zero energy,
marked silent and monotone - at its own timestamp, not a dropped entry. -/
theorem audio_segment_timeline_contract (L S sr : Nat)
    (oracle : Nat → SegAnalysis) (hS : 0 < S) (hsr : 0 < sr) :
    ((audio_segment_timeline L S sr oracle).map AudioSegRecord.timestamp
        = (segment_starts L S sr).map (fun i : Nat => (i : ℚ) / (sr : ℚ)))
    ∧ List.Pairwise (fun a b : ℚ => a < b)
        ((audio_segment_timeline L S sr oracle).map AudioSegRecord.timestamp)
    ∧ List.Pairwise (fun a b : Nat => a + S ≤ b) (segment_starts L S sr)
    ∧ (∀ i ∈ segment_starts L S sr, (oracle i).raises = true →
        _analyze_audio_segment oracle sr i
          = { timestamp := (i : ℚ) / (sr : ℚ), energy := 0, pitch := 0,
              pitch_std := 0, is_silent := true, is_monotone := true }) := by
  refine ⟨audio_timeline_timestamps L S sr oracle,
    audio_timeline_timestamps_lt L S sr oracle hS hsr,
    segment_starts_gap L S sr, ?_⟩
  intro i _ hi
  unfold _analyze_audio_segment
  rw [if_pos hi]

/-- Closed instance of `audio_segment_timeline_contract`: a 25-sample track
at 2 samples/second with 10-sample windows keeps windows 0, 10 and 20, the
one at 10 raising and yielding the placeholder. -/
theorem audio_segment_timeline_contract_witness :
    0 < 10 ∧ 0 < 2 ∧
    ((audio_segment_timeline 25 10 2 demo_oracle).map AudioSegRecord.timestamp
        = (segment_starts 25 10 2).map (fun i : Nat => (i : ℚ) / ((2 : Nat) : ℚ)))
    ∧ List.Pairwise (fun a b : ℚ => a < b)
        ((audio_segment_timeline 25 10 2 demo_oracle).map AudioSegRecord.timestamp)
    ∧ List.Pairwise (fun a b : Nat => a + 10 ≤ b) (segment_starts 25 10 2)
    ∧ _analyze_audio_segment demo_oracle 2 10
        = { timestamp := ((10 : Nat) : ℚ) / ((2 : Nat) : ℚ), energy := 0, pitch := 0,
            pitch_std := 0, is_silent := true, is_monotone := true } :=
  ⟨by decide, by decide,
    (audio_segment_timeline_contract 25 10 2 demo_oracle (by decide) (by decide)).1,
    (audio_segment_timeline_contract 25 10 2 demo_oracle (by decide) (by decide)).2.1,
    (audio_segment_timeline_contract 25 10 2 demo_oracle (by decide) (by decide)).2.2.1,
    (audio_segment_timeline_contract 25 10 2 demo_oracle (by decide)
      (by decide)).2.2.2 10 (by decide) (by decide)⟩

/-- Values written to `pipeline_store[pid]["status"]` (agents.py). -/
inductive RunStatus where
  | queued
  | running
  | completed
  | failed
deriving DecidableEq

/-- Modelled from the spec: the orchestrator module (`core.agents.orchestrator`,
imported by `backend/app/api/agents.py` but absent from the sources) exposes
`get_pipeline_status()`, read by the event callback at agents.py line 146
while `run_pipeline` is executing. Per the spec a pipeline run is running
from the moment execution starts until it reaches a terminal state, so every
mid-run status read reports `running`. -/
def orch_midrun_status : RunStatus := RunStatus.running

/-- Terminal store write of `run_agent_pipeline` (agents.py lines 152-161):
`completed` when `orch.run_pipeline` returns, `failed` when it raises. -/
def terminal_of (outcome : Except String Unit) : RunStatus :=
  match outcome with
  | Except.ok _ => RunStatus.completed
  | Except.error _ => RunStatus.failed

/-- The successive values written to `pipeline_store[pid]["status"]` during
one run: `queued` at creation (line 109), `running` on background-task entry
(line 153), one orchestrator-reported status per event callback (line 146),
then the terminal status (lines 155/160). -/
def run_agent_pipeline_trace (nEvents : Nat) (outcome : Except String Unit) :
    List RunStatus :=
  RunStatus.queued :: RunStatus.running ::
    (List.replicate nEvents orch_midrun_status ++ [terminal_of outcome])

/-- The externally visible status path: consecutive duplicate writes
collapsed. -/
def collapseStatuses : List RunStatus → List RunStatus
  | [] => []
  | [a] => [a]
  | a :: b :: rest =>
      if a = b then collapseStatuses (b :: rest) else a :: collapseStatuses (b :: rest)

theorem collapse_running_tail (t : RunStatus) (ht : ¬ t = RunStatus.running)
    (n : Nat) :
    collapseStatuses (RunStatus.running :: (List.replicate n RunStatus.running ++ [t]))
      = [RunStatus.running, t] := by
  induction n with
  | zero =>
    have hne : ¬ RunStatus.running = t := fun h => ht h.symm
    simp [collapseStatuses, hne]
  | succ n ih =>
    simp only [List.replicate_succ, List.cons_append]
    rw [show collapseStatuses (RunStatus.running :: RunStatus.running ::
        (List.replicate n RunStatus.running ++ [t]))
        = collapseStatuses (RunStatus.running ::
        (List.replicate n RunStatus.running ++ [t])) from by
      simp [collapseStatuses]]
    exact ih

/-- C4: the externally visible status path of any pipeline run is exactly
`queued -> running -> completed` or `queued -> running -> failed`, matching
the run outcome: `running` is never skipped, the state never regresses, and
the run ends in exactly one terminal state. -/
theorem pipeline_status_valid_path (n : Nat) (outcome : Except String Unit) :
    collapseStatuses (run_agent_pipeline_trace n outcome)
        = [RunStatus.queued, RunStatus.running, terminal_of outcome]
    ∧ (terminal_of outcome = RunStatus.completed
        ∨ terminal_of outcome = RunStatus.failed) := by
  constructor
  · have ht : ¬ terminal_of outcome = RunStatus.running := by
      cases outcome <;> simp [terminal_of]
    rw [run_agent_pipeline_trace]
    rw [show collapseStatuses (RunStatus.queued :: RunStatus.running ::
        (List.replicate n orch_midrun_status ++ [terminal_of outcome]))
        = RunStatus.queued :: collapseStatuses (RunStatus.running ::
        (List.replicate n orch_midrun_status ++ [terminal_of outcome])) from by
      simp [collapseStatuses]]
    rw [show orch_midrun_status = RunStatus.running from rfl]
    rw [collapse_running_tail (terminal_of outcome) ht n]
  · cases outcome with
    | ok v => exact Or.inl rfl
    | error e => exact Or.inr rfl
